import Mathlib

/-!
Shallow embedding of the jessit agent runtime core
(`src/core/context.py`, `src/core/safety.py`, `src/core/skill_manager.py`,
`src/core/agent.py`) together with theorems checking the natural-language
specification against it.

Modelling conventions:
* Python `str` is Lean `String`; Python dicts whose keys matter to the core
  are either association lists (`List (String × String)`) or finite records.
* Machine side effects (module import, handler invocation) are passed in as
  an explicit environment (`HandlerEnv`); a Python exception raised by a
  handler is an explicit `HandlerOutcome.raises` value.
* Wall-clock timestamps on messages (`datetime.now()` in `context.py`) are
  not modelled; no claim mentions them.
-/

namespace Jessit

/-- Tool/skill call arguments: the (string-keyed, string-valued) argument
dictionaries the core passes around.  Only string values occur in the
claims under check. -/
abbrev Args := List (String × String)

/-! ## ConversationContext (`src/core/context.py`) -/

/-- `Message` dataclass of `context.py` (role, content, metadata); the
`timestamp` field is not modelled. -/
structure Message where
  role : String
  content : String
  metadata : Args
deriving Repr, DecidableEq

/-- `ConversationContext` of `context.py`: the `messages` list and the
`max_history` bound (Python default 50). -/
structure ConversationContext where
  messages : List Message
  max_history : Nat
deriving Repr, DecidableEq

/-- Python list slice `l[-k:]` for a natural `k`.  Note that for `k = 0`
Python yields `l[0:] = l` (the whole list), not the empty list — this
faithfully reproduces `self.messages[-self.max_history:]` in
`ConversationContext.add_message`. -/
def pySliceLast (k : Nat) (l : List Message) : List Message :=
  if k = 0 then l else l.drop (l.length - k)

/-- `ConversationContext.add_message`: append, then truncate from the front
when the length exceeds `max_history` (via the Python slice above). -/
def ConversationContext.add_message (ctx : ConversationContext)
    (role content : String) (metadata : Args) : ConversationContext :=
  let msgs := ctx.messages ++ [⟨role, content, metadata⟩]
  if msgs.length > ctx.max_history then
    { ctx with messages := pySliceLast ctx.max_history msgs }
  else
    { ctx with messages := msgs }

/-- `ConversationContext.get_messages`: role/content pairs for the LLM API,
metadata stripped, order preserved. -/
def ConversationContext.get_messages (ctx : ConversationContext) :
    List (String × String) :=
  ctx.messages.map (fun msg => (msg.role, msg.content))

/-- `ConversationContext.clear`. -/
def ConversationContext.clear (ctx : ConversationContext) : ConversationContext :=
  { ctx with messages := [] }

/-! ## SafetyClassifier (`src/core/safety.py`)

`is_dangerous_operation` scans the `command` argument of the
`execute_powershell` tool with `re.search(pattern, command, re.IGNORECASE)`
for seven deletion patterns.  The patterns use only word boundaries (`\b`),
literals, `\s` and `\s+`, so we embed a small matcher for exactly those
constructs. -/

/-- Word character in the sense of regex `\w` (ASCII letters, digits,
underscore — the characters occurring in the scanned commands). -/
def isWordChar (c : Char) : Bool :=
  c.isAlpha || c.isDigit || c = '_'

/-- One element of a safety pattern: a literal character (stored lowercase,
compared case-insensitively), one whitespace char (`\s`), one-or-more
whitespace (`\s+`), or a word boundary (`\b`) adjacent to a literal word
character on its right (`bLeft`) or left (`bRight`). -/
inductive Pat where
  | lit (c : Char)
  | ws
  | wsPlus
  | bLeft
  | bRight
deriving Repr, DecidableEq

/-- Greedily drop leading whitespace, remembering the last character
consumed (for boundary checks). -/
def dropWsGreedy : Option Char → List Char → Option Char × List Char
  | prev, [] => (prev, [])
  | prev, c :: rest =>
    if c.isWhitespace then dropWsGreedy (some c) rest else (prev, c :: rest)

/-- Match a pattern at the start of `s`; `prev` is the character preceding
`s` in the subject (for `\b`).  `\s+` may consume greedily because in every
pattern of `safety.py` it is followed by a non-whitespace literal.  The
first argument is structural-recursion fuel; every step strictly decreases
`s.length + ps.length`, so the fuel supplied by `matchFrom` below never
runs out (the `0` fallback is unreachable for that fuel). -/
def matchFromAux : Nat → Option Char → List Char → List Pat → Bool
  | _, _, _, [] => true
  | 0, _, _, _ :: _ => false
  | fuel + 1, prev, s, .bLeft :: ps =>
    (match prev with
     | none => true
     | some c => !isWordChar c) && matchFromAux fuel prev s ps
  | fuel + 1, prev, s, .bRight :: ps =>
    (match s with
     | [] => true
     | c :: _ => !isWordChar c) && matchFromAux fuel prev s ps
  | _ + 1, _, [], .lit _ :: _ => false
  | fuel + 1, _, c :: rest, .lit l :: ps =>
    (c.toLower = l) && matchFromAux fuel (some c) rest ps
  | _ + 1, _, [], .ws :: _ => false
  | fuel + 1, _, c :: rest, .ws :: ps =>
    c.isWhitespace && matchFromAux fuel (some c) rest ps
  | _ + 1, _, [], .wsPlus :: _ => false
  | fuel + 1, _, c :: rest, .wsPlus :: ps =>
    c.isWhitespace &&
      (let pr := dropWsGreedy (some c) rest
       matchFromAux fuel pr.1 pr.2 ps)

/-- Match a pattern at the start of `s` (adequately-fuelled entry point). -/
def matchFrom (prev : Option Char) (s : List Char) (ps : List Pat) : Bool :=
  matchFromAux (s.length + ps.length) prev s ps

/-- `re.search`: try the pattern at every position of the subject. -/
def searchAux (ps : List Pat) : Option Char → List Char → Bool
  | prev, [] => matchFrom prev [] ps
  | prev, c :: rest => matchFrom prev (c :: rest) ps || searchAux ps (some c) rest

/-- `re.search(pattern, command, re.IGNORECASE)` for the pattern shapes of
`safety.py`. -/
def reSearch (ps : List Pat) (command : String) : Bool :=
  searchAux ps none command.data

/-- Literal pattern fragment (stored lowercase for the case-insensitive
comparison). -/
def litPat (s : String) : List Pat :=
  s.data.map Pat.lit

/-- The `delete_patterns` list of `safety.py`, in source order. -/
def delete_patterns : List (List Pat) :=
  [ [.bLeft] ++ litPat "remove-item" ++ [.bRight],
    [.bLeft] ++ litPat "rm" ++ [.bRight],
    [.bLeft] ++ litPat "del" ++ [.ws],
    [.bLeft] ++ litPat "erase" ++ [.ws],
    [.bLeft] ++ litPat "rmdir" ++ [.ws],
    [.bLeft] ++ litPat "remove-item" ++ [.wsPlus] ++ litPat "-force" ++ [.bRight],
    [.bLeft] ++ litPat "remove-item" ++ [.wsPlus] ++ litPat "-recurse" ++ [.bRight] ]

/-- Python `str.strip()` (leading and trailing whitespace removed). -/
def pyStrip (s : String) : String :=
  String.mk (((s.data.dropWhile Char.isWhitespace).reverse.dropWhile
    Char.isWhitespace).reverse)

/-- `is_dangerous_operation` of `safety.py`.  Only `execute_powershell` is
inspected; the first matching deletion pattern yields
`(True, f"执行删除操作: {command}")`.  (The `path_match`/`target` extraction
in the source is computed but never used in the returned value, so it is
not modelled.)  Everything else returns `(False, "")`. -/
def is_dangerous_operation (tool_name : String) (tool_args : Args) :
    Bool × String :=
  if tool_name = "execute_powershell" then
    let command := pyStrip (((tool_args.lookup "command").getD ""))
    if delete_patterns.any (fun ps => reSearch ps command) then
      (true, "执行删除操作: " ++ command)
    else
      (false, "")
  else
    (false, "")

/-! ## SkillManager (`src/core/skill_manager.py`) -/

/-- `SkillDefinition` dataclass of `skill_manager.py`.  `parameters` is the
JSON parameter schema, modelled opaquely as key/value pairs; `module_path`
is the Python module bound to the skill (`None` when no `.py` implementation
file exists next to the definition). -/
structure SkillDefinition where
  name : String
  description : String
  parameters : Args
  handler : String
  enabled : Bool
  metadata : Args
  module_path : Option String
deriving Repr, DecidableEq

/-- A skill handler result: a Python dict.  The fields the core reads or
builds are modelled explicitly (`success`, `error`, `tool_name`,
`tool_args`, each `none` when the key is absent); `data` holds any other
domain-specific entries a handler returns. -/
structure SkillResult where
  success : Option Bool
  error : Option String
  tool_name : Option String
  tool_args : Option Args
  data : Args
deriving Repr, DecidableEq

/-- A result dict with only `success`/`error` keys (the shape the registry
builds for its own failures). -/
def mkErrResult (msg : String) : SkillResult :=
  { success := some false, error := some msg, tool_name := none,
    tool_args := none, data := [] }

/-- `result.get("success", True)` in `agent.py`. -/
def SkillResult.get_success (r : SkillResult) : Bool :=
  r.success.getD true

/-- Python `str(bool)`. -/
def pyStrBool : Bool → String
  | true => "True"
  | false => "False"

/-- Python `str` of an argument dict (insertion order, `repr` quoting). -/
def pyStrArgs (args : Args) : String :=
  "\x7b" ++ String.intercalate ", "
    (args.map (fun p => "\x27" ++ p.1 ++ "\x27: \x27" ++ p.2 ++ "\x27")) ++ "\x7d"

/-- Python `str(result)` as used for tool-result message content in
`agent.py`: the dict rendered with its keys in insertion order. -/
def pyStrResult (r : SkillResult) : String :=
  let fields :=
    (match r.success with
     | some b => ["\x27success\x27: " ++ pyStrBool b]
     | none => []) ++
    (match r.error with
     | some e => ["\x27error\x27: \x27" ++ e ++ "\x27"]
     | none => []) ++
    (match r.tool_name with
     | some n => ["\x27tool_name\x27: \x27" ++ n ++ "\x27"]
     | none => []) ++
    (match r.tool_args with
     | some a => ["\x27tool_args\x27: " ++ pyStrArgs a]
     | none => []) ++
    r.data.map (fun p => "\x27" ++ p.1 ++ "\x27: \x27" ++ p.2 ++ "\x27")
  "\x7b" ++ String.intercalate ", " fields ++ "\x7d"

/-- Outcome of resolving and invoking a skill's Python module, as seen at
the `try` block of `execute_skill`: the handler returned a result dict,
raised some exception, the `importlib.import_module` raised `ImportError`,
or `getattr` raised `AttributeError`. -/
inductive HandlerOutcome where
  | ok (result : SkillResult)
  | raises (msg : String)
  | modNotFound (msg : String)
  | fnNotFound
deriving Repr, DecidableEq

/-- The ambient Python module environment: what importing `module_path` and
calling its entry function on the given arguments does.  This stands for
the machinery in the `try` block of `execute_skill` that is outside the
repository core (dynamic import plus the skill body). -/
abbrev HandlerEnv := String → Args → HandlerOutcome

/-- `SkillManager`: the `self.skills` dict (name → definition, insertion
ordered). -/
structure SkillManager where
  skills : List (String × SkillDefinition)
deriving Repr, DecidableEq

/-- `SkillManager.get_skill` (`self.skills.get(name)`). -/
def SkillManager.get_skill (m : SkillManager) (name : String) :
    Option SkillDefinition :=
  m.skills.lookup name

/-- `SkillManager.get_skills_for_llm`: enabled skills shaped as Anthropic
tool schemas. -/
structure ToolSchema where
  name : String
  description : String
  input_schema : Args
deriving Repr, DecidableEq

def SkillManager.get_skills_for_llm (m : SkillManager) : List ToolSchema :=
  ((m.skills.map Prod.snd).filter (fun sk => sk.enabled)).map
    (fun sk => ⟨sk.name, sk.description, sk.parameters⟩)

/-- `SkillManager.execute_skill`.  Failure branches in source order:
unknown name, disabled skill, missing implementation module (Python
`if not skill.module_path` is also true for an empty string), then the
`try` block whose `ImportError`/`AttributeError`/generic `except` arms each
produce a `success: False` result rather than propagating. -/
def SkillManager.execute_skill (m : SkillManager) (env : HandlerEnv)
    (skill_name : String) (arguments : Args) : SkillResult :=
  match m.get_skill skill_name with
  | none => mkErrResult ("Skill not found: " ++ skill_name)
  | some skill =>
    if !skill.enabled then
      mkErrResult ("Skill is disabled: " ++ skill_name)
    else
      match skill.module_path with
      | none => mkErrResult ("Skill has no implementation: " ++ skill_name)
      | some module_path =>
        if module_path = "" then
          mkErrResult ("Skill has no implementation: " ++ skill_name)
        else
          let function_name := (module_path.splitOn ".").getLastD ""
          match env module_path arguments with
          | .ok result => result
          | .modNotFound e =>
            mkErrResult ("Failed to import module " ++ module_path ++ ": " ++ e)
          | .fnNotFound =>
            mkErrResult ("Function \x27" ++ function_name ++
              "\x27 not found in module " ++ module_path)
          | .raises e =>
            mkErrResult ("Failed to execute skill " ++ skill_name ++ ": " ++ e)

/-! ## OrchestrationEngine (`JessitAgent.chat_with_tools` in `src/core/agent.py`)

The engine's local `messages` list mixes plain role/content dicts with
Anthropic-style structured blocks; `Msg`/`MsgContent` model both shapes.
The LLM provider is a function from the message list and tool schemas to a
response; a provider exception is the explicit `LLMResponse.raise` value,
routed to the single `except` handler at the turn boundary exactly where
Python would propagate it. -/

/-- Content of one entry of the engine's `messages` list: a plain string,
or a one-block structured content list (`tool_use` / `tool_result`) as
built in `chat_with_tools`. -/
inductive MsgContent where
  | text (s : String)
  | toolUseBlock (id name : String) (input : Args)
  | toolResultBlock (tool_use_id : String) (content : String)
deriving Repr, DecidableEq

/-- One entry of the engine's local `messages` list. -/
structure Msg where
  role : String
  content : MsgContent
deriving Repr, DecidableEq

/-- A `ToolCall` produced by the LLM provider (`{id, name, input}`). -/
structure ToolCall where
  id : String
  name : String
  input : Args
deriving Repr, DecidableEq

/-- An LLM provider response: final text, a tool-use request, or a raised
exception (carrying `str(e)`). -/
inductive LLMResponse where
  | text (s : String)
  | toolUse (tool_calls : List ToolCall)
  | llmRaise (msg : String)
deriving Repr, DecidableEq

/-- The LLM provider: a function of the message list and the tool catalog
(the two arguments `chat_with_tools` passes to `self.llm.chat`). -/
abbrev LLM := List Msg → List ToolSchema → LLMResponse

/-- An `ExecutionStep` record of `progress_info["execution_steps"]`. -/
structure ExecutionStep where
  tool_name : String
  tool_args : Args
  result : SkillResult
  status : String
deriving Repr, DecidableEq

/-- One planned call as recorded in `progress_info["plan"]`. -/
abbrev PlanStep := String × Args

/-- The `progress_info` dict of `chat_with_tools`. -/
structure ProgressInfo where
  analysis : String
  plan : List PlanStep
  execution_steps : List ExecutionStep
  final_result : String
deriving Repr, DecidableEq

/-- Progress events delivered to `progress_callback`, in emission order,
with the payloads built in `chat_with_tools` (`complete`/`error` also carry
the `progress_info` snapshot). -/
inductive ProgressEvent where
  | analyzing (message : String)
  | analysis_complete (analysis : String)
  | planning (plan : List PlanStep)
  | executing (tool_name : String) (tool_args : Args)
  | step_complete (step : ExecutionStep)
  | processing_results (message : String)
  | complete (final_result : String) (info : ProgressInfo)
  | error (msg : String) (info : ProgressInfo)
deriving Repr, DecidableEq

/-- The agent wiring used by `chat_with_tools`: provider, skills registry,
module environment, the optional confirmation callback, and the system
prompt. -/
structure AgentConfig where
  llm : LLM
  skills : SkillManager
  env : HandlerEnv
  confirmation_callback : Option (String → String → Bool)
  system_prompt : String

/-- The mutable turn-local state of `chat_with_tools`: the `messages` list,
`progress_info`, and the events emitted so far. -/
structure TurnState where
  messages : List Msg
  progress_info : ProgressInfo
  events : List ProgressEvent
deriving Repr, DecidableEq

/-- The result dict synthesized for a user-denied dangerous operation. -/
def cancelResult (tc : ToolCall) : SkillResult :=
  { success := some false, error := some "用户取消了危险操作",
    tool_name := some tc.name, tool_args := some tc.input, data := [] }

/-- The assistant `tool_use` message appended for a tool call. -/
def toolUseMsg (tc : ToolCall) : Msg :=
  ⟨"assistant", .toolUseBlock tc.id tc.name tc.input⟩

/-- The user `tool_result` message appended for a tool call's result. -/
def toolResultMsg (tc : ToolCall) (r : SkillResult) : Msg :=
  ⟨"user", .toolResultBlock tc.id (pyStrResult r)⟩

/-- The denied-confirmation branch of the tool-call loop body (`agent.py`
lines 160–206): record a cancelled step, emit `step_complete`, and append
the tool-use/tool-result message pair; the handler is never consulted. -/
def cancelToolCall (tc : ToolCall) (st : TurnState) : TurnState :=
  let result := cancelResult tc
  let step : ExecutionStep := ⟨tc.name, tc.input, result, "cancelled"⟩
  { messages := st.messages ++ [toolUseMsg tc, toolResultMsg tc result],
    progress_info := { st.progress_info with
      execution_steps := st.progress_info.execution_steps ++ [step] },
    events := st.events ++ [.step_complete step] }

/-- The dispatch branch of the tool-call loop body (`agent.py` lines
208–263): emit `executing`, append the tool-use message, run the skill,
record a step whose status is `completed`/`failed` from
`result.get("success", True)`, emit `step_complete`, append the
tool-result message. -/
def executeToolCall (cfg : AgentConfig) (tc : ToolCall) (st : TurnState) :
    TurnState :=
  let result := cfg.skills.execute_skill cfg.env tc.name tc.input
  let step : ExecutionStep :=
    ⟨tc.name, tc.input, result,
      if result.get_success then "completed" else "failed"⟩
  { messages := st.messages ++ [toolUseMsg tc, toolResultMsg tc result],
    progress_info := { st.progress_info with
      execution_steps := st.progress_info.execution_steps ++ [step] },
    events := st.events ++ [.executing tc.name tc.input, .step_complete step] }

/-- One iteration of the per-tool-call `for` loop: classify; if dangerous
and a confirmation callback is installed and it denies, cancel; in every
other case (not dangerous, callback approves, or — notably — no callback
installed) fall through to dispatch. -/
def processToolCall (cfg : AgentConfig) (tc : ToolCall) (st : TurnState) :
    TurnState :=
  let d := is_dangerous_operation tc.name tc.input
  if d.1 then
    match cfg.confirmation_callback with
    | some cb =>
      if cb tc.name d.2 then executeToolCall cfg tc st else cancelToolCall tc st
    | none => executeToolCall cfg tc st
  else
    executeToolCall cfg tc st

/-- The `for tool_call in tool_calls` loop. -/
def runToolCalls (cfg : AgentConfig) (calls : List ToolCall) (st : TurnState) :
    TurnState :=
  calls.foldl (fun s tc => processToolCall cfg tc s) st

/-- Plan recording at the top of each round: `progress_info["plan"]` is set
(and `planning` emitted) only while the plan is still empty. -/
def recordPlan (calls : List ToolCall) (st : TurnState) : TurnState :=
  let step_plan : List PlanStep := calls.map (fun tc => (tc.name, tc.input))
  if st.progress_info.plan.isEmpty then
    { st with
      progress_info := { st.progress_info with plan := step_plan },
      events := st.events ++ [.planning step_plan] }
  else
    st

/-- One full round of the `while` loop, up to (but not including) the
trailing LLM call: record the plan, process every tool call, emit
`processing_results`. -/
def loopBody (cfg : AgentConfig) (calls : List ToolCall) (st : TurnState) :
    TurnState :=
  let st2 := runToolCalls cfg calls (recordPlan calls st)
  { st2 with events := st2.events ++ [.processing_results "正在处理结果..."] }

/-- Outcome of the `while` loop: the response that ended it (or an
exception raised by an in-loop LLM call), the turn state, and the number of
rounds executed (the final value of Python's `iteration` counter). -/
inductive LoopOut where
  | finished (response : LLMResponse) (st : TurnState) (rounds : Nat)
  | raised (msg : String) (st : TurnState) (rounds : Nat)
deriving Repr, DecidableEq

/-- Rounds executed. -/
def LoopOut.rounds : LoopOut → Nat
  | .finished _ _ n => n
  | .raised _ _ n => n

/-- Add one executed round (used when returning through a recursive call). -/
def LoopOut.bump : LoopOut → LoopOut
  | .finished r st n => .finished r st (n + 1)
  | .raised e st n => .raised e st (n + 1)

/-- The `while isinstance(response, dict) and response.get("type") ==
"tool_use" and iteration < max_iterations` loop; `fuel` is
`max_iterations - iteration`, so the guard `iteration < max_iterations`
is `fuel > 0`.  Each round runs `loopBody` and then calls the provider on
the accumulated messages; a provider exception ends the loop as `raised`. -/
def runLoop (cfg : AgentConfig) (tools : List ToolSchema) :
    Nat → LLMResponse → TurnState → LoopOut
  | 0, response, st => .finished response st 0
  | _ + 1, .text s, st => .finished (.text s) st 0
  | _ + 1, .llmRaise e, st => .finished (.llmRaise e) st 0
  | fuel + 1, .toolUse calls, st =>
    let st3 := loopBody cfg calls st
    match cfg.llm st3.messages tools with
    | .llmRaise e => .raised e st3 1
    | .text s => .finished (.text s) st3 1
    | .toolUse cs => (runLoop cfg tools fuel (.toolUse cs) st3).bump

/-- `max_iterations = 10` (hard-coded in `chat_with_tools`). -/
def max_iterations : Nat := 10

/-- The message list built at the top of `chat_with_tools`: the system
prompt followed by the context snapshot. -/
def firstMessages (cfg : AgentConfig) (ctx1 : ConversationContext) : List Msg :=
  ⟨"system", .text cfg.system_prompt⟩ ::
    ctx1.get_messages.map (fun p => ⟨p.1, .text p.2⟩)

/-- The analysis text synthesized when the first response is already a
tool-use request. -/
def analysisTextFor (calls : List ToolCall) : String :=
  "分析完成，将执行以下操作：\n" ++
    String.join (calls.map (fun tc => "- 调用工具: " ++ tc.name ++ "\n"))

/-- The `progress_info["analysis"]` value recorded for the first
response. -/
def analysisOf : LLMResponse → String
  | .text s => s
  | .toolUse calls => analysisTextFor calls
  | .llmRaise _ => ""

/-- The turn state after the first (non-raising) provider response:
the built message list, the analysis recorded, and the `analyzing` /
`analysis_complete` events emitted. -/
def startState (messages : List Msg) (response : LLMResponse) : TurnState :=
  ⟨messages, ⟨analysisOf response, [], [], ""⟩,
    [.analyzing "正在分析任务...", .analysis_complete (analysisOf response)]⟩

/-- Everything `chat_with_tools` produces: the returned string, the updated
`self.context`, the final `progress_info`, the emitted progress events, the
number of provider calls made, and the number of tool rounds executed. -/
structure ChatOutcome where
  result : String
  context : ConversationContext
  progress_info : ProgressInfo
  events : List ProgressEvent
  llm_calls : Nat
  rounds : Nat
deriving Repr, DecidableEq

/-- `JessitAgent.chat_with_tools`: append the user message to the context,
build the message list and tool catalog, call the provider, record the
analysis, run the tool-use loop (cap 10), then finish in one of the three
terminal ways of the source: final text (appended to the context),
iteration-cap error string (returned but *not* appended to the context), or
caught provider exception (appended to the context as an assistant error
message). -/
def chat_with_tools (cfg : AgentConfig) (ctx : ConversationContext)
    (user_message : String) : ChatOutcome :=
  let ctx1 := ctx.add_message "user" user_message []
  let messages := firstMessages cfg ctx1
  let tools := cfg.skills.get_skills_for_llm
  let info0 : ProgressInfo := ⟨"", [], [], ""⟩
  let ev0 : List ProgressEvent := [.analyzing "正在分析任务..."]
  match cfg.llm messages tools with
  | .llmRaise e =>
    let error_message := "发生错误: " ++ e
    let info1 := { info0 with final_result := error_message }
    { result := error_message,
      context := ctx1.add_message "assistant" error_message [],
      progress_info := info1,
      events := ev0 ++ [.error error_message info1],
      llm_calls := 1, rounds := 0 }
  | response =>
    match runLoop cfg tools max_iterations response (startState messages response) with
    | .raised e st n =>
      let error_message := "发生错误: " ++ e
      let info2 := { st.progress_info with final_result := error_message }
      { result := error_message,
        context := ctx1.add_message "assistant" error_message [],
        progress_info := info2,
        events := st.events ++ [.error error_message info2],
        llm_calls := 1 + n, rounds := n }
    | .finished (.text s) st n =>
      let info2 := { st.progress_info with final_result := s }
      { result := s,
        context := ctx1.add_message "assistant" s [],
        progress_info := info2,
        events := st.events ++ [.complete s info2],
        llm_calls := 1 + n, rounds := n }
    | .finished _ st n =>
      let error_msg := "错误：工具调用超过最大迭代次数"
      let info2 := { st.progress_info with final_result := error_msg }
      { result := error_msg,
        context := ctx1,
        progress_info := info2,
        events := st.events ++ [.error error_msg info2],
        llm_calls := 1 + n, rounds := n }

/-! ## Derived definitions used by the verification -/

/-- Append a sequence of messages to a context via `add_message` (the
setting of the history-bound property). -/
def ConversationContext.addAll (ctx : ConversationContext)
    (items : List Message) : ConversationContext :=
  items.foldl (fun c msg => c.add_message msg.role msg.content msg.metadata) ctx

/-- The result recorded for a tool call: the synthesized cancellation
payload when the call is dangerous and an installed confirmation callback
denies it, the registry dispatch result otherwise.  (Mirrors the branch
structure of `processToolCall`; note it does not depend on the turn
state.) -/
def recordedResult (cfg : AgentConfig) (tc : ToolCall) : SkillResult :=
  let d := is_dangerous_operation tc.name tc.input
  if d.1 then
    match cfg.confirmation_callback with
    | some cb =>
      if cb tc.name d.2 then cfg.skills.execute_skill cfg.env tc.name tc.input
      else cancelResult tc
    | none => cfg.skills.execute_skill cfg.env tc.name tc.input
  else
    cfg.skills.execute_skill cfg.env tc.name tc.input

/-- The assistant tool-use / user tool-result message pair appended to the
engine's message list for one tool call. -/
def toolMsgPair (cfg : AgentConfig) (tc : ToolCall) : List Msg :=
  [toolUseMsg tc, toolResultMsg tc (recordedResult cfg tc)]

/-! ## Concrete instances for witnesses and counterexamples -/

/-- A fresh conversation context with the Python default bound of 50. -/
def emptyCtx : ConversationContext := ⟨[], 50⟩

/-- An empty turn state. -/
def turnState0 : TurnState := ⟨[], ⟨"", [], [], ""⟩, []⟩

/-- A marker result: observing it in a recorded step proves the handler was
invoked. -/
def marker : SkillResult := ⟨some true, none, none, none, [("output", "ran")]⟩

/-- A module environment whose handlers return `marker`. -/
def okEnv : HandlerEnv := fun _ _ => .ok marker

/-- The repository's `execute_powershell` skill definition. -/
def psSkill : SkillDefinition :=
  ⟨"execute_powershell", "Run a PowerShell command", [("command", "string")],
    "powershell.execute", true, [],
    some "skills.powershell_executor.execute_powershell"⟩

/-- A `delete_file` skill as in Scenario 1 of the spec. -/
def dfSkill : SkillDefinition :=
  ⟨"delete_file", "Delete a file", [("path", "string")], "file.delete",
    true, [], some "skills.file_operations.delete_file"⟩

/-- A `write_file`-style skill used to exercise handler failures. -/
def writeSkill : SkillDefinition :=
  ⟨"write_file", "Write a file", [("path", "string")], "file.write",
    true, [], some "skills.file_operations.write_file"⟩

/-- An `execute_powershell` call whose command matches a deletion
pattern. -/
def dangerCall : ToolCall :=
  ⟨"toolu_01", "execute_powershell", [("command", "Remove-Item \x27C:\\data\x27")]⟩

/-- The `delete_file(path="C:\data")` call of Scenario 1. -/
def dfCall : ToolCall := ⟨"toolu_02", "delete_file", [("path", "C:\\data")]⟩

/-- A `write_file` call. -/
def wfCall : ToolCall := ⟨"toolu_03", "write_file", [("path", "a.txt")]⟩

/-- A call to a name absent from the registry (Scenario 4). -/
def fooCall : ToolCall := ⟨"toolu_04", "foo", []⟩

/-- A provider that requests `tc` on the first call of a fresh turn (the
message list then holds just the system prompt and the user message) and
answers with final text afterwards. -/
def oneRoundLLM (tc : ToolCall) : LLM := fun msgs _ =>
  if msgs.length ≤ 2 then .toolUse [tc] else .text "done"

/-- Agent with the dangerous call available and *no* confirmation callback
installed. -/
def noCallbackCfg : AgentConfig :=
  ⟨oneRoundLLM dangerCall, ⟨[("execute_powershell", psSkill)]⟩, okEnv, none,
    "You are Jessit"⟩

/-- Agent holding `delete_file` with an always-denying confirmation
consumer (Scenario 1). -/
def denyAllCfg : AgentConfig :=
  ⟨oneRoundLLM dfCall, ⟨[("delete_file", dfSkill)]⟩, okEnv,
    some (fun _ _ => false), "You are Jessit"⟩

/-- Agent with the dangerous PowerShell call and an always-denying
confirmation consumer. -/
def denyPsCfg : AgentConfig :=
  ⟨oneRoundLLM dangerCall, ⟨[("execute_powershell", psSkill)]⟩, okEnv,
    some (fun _ _ => false), "You are Jessit"⟩

/-- Agent whose provider always answers with a (trivial) tool-use
request. -/
def loopForeverCfg : AgentConfig :=
  ⟨fun _ _ => .toolUse [], ⟨[]⟩, okEnv, none, "You are Jessit"⟩

/-- Agent whose provider raises a connection error on every call. -/
def raiseCfg : AgentConfig :=
  ⟨fun _ _ => .llmRaise "Connection refused", ⟨[]⟩, okEnv, none,
    "You are Jessit"⟩

/-- A module environment whose handler raises. -/
def raisingEnv : HandlerEnv := fun _ _ => .raises "boom"

/-- Agent whose (safe) skill handler raises. -/
def raisingCfg : AgentConfig :=
  ⟨oneRoundLLM wfCall, ⟨[("write_file", writeSkill)]⟩, raisingEnv, none,
    "You are Jessit"⟩

/-- A handler result with no `success` key at all. -/
def noSuccessResult : SkillResult := ⟨none, none, none, none, [("output", "ok2")]⟩

/-- A module environment whose handlers return `noSuccessResult`. -/
def noSuccessEnv : HandlerEnv := fun _ _ => .ok noSuccessResult

/-- Agent whose skill handler returns a result without a `success` key. -/
def noSuccessCfg : AgentConfig :=
  ⟨oneRoundLLM wfCall, ⟨[("write_file", writeSkill)]⟩, noSuccessEnv, none,
    "You are Jessit"⟩

/-- A disabled skill definition. -/
def disabledSkill : SkillDefinition :=
  ⟨"skB", "disabled skill", [], "", false, [], some "skills.b"⟩

/-- An enabled skill definition without an implementation module. -/
def noImplSkill : SkillDefinition := ⟨"skC", "no implementation", [], "", true, [], none⟩

/-- A registry holding a disabled skill and an unimplemented skill (and no
`"foo"`). -/
def failRegistry : SkillManager := ⟨[("skB", disabledSkill), ("skC", noImplSkill)]⟩

/-- Agent over `failRegistry` whose provider requests `"foo"` once. -/
def fooCfg : AgentConfig :=
  ⟨oneRoundLLM fooCall, failRegistry, okEnv, none, "You are Jessit"⟩

/-- The U1,A1,U2,A2,U3 message sequence of Scenario 2, with metadata that
`get_messages` must strip. -/
def scenario2Items : List Message :=
  [⟨"user", "U1", [("turn", "1")]⟩, ⟨"assistant", "A1", [("turn", "1")]⟩,
   ⟨"user", "U2", [("turn", "2")]⟩, ⟨"assistant", "A2", [("turn", "2")]⟩,
   ⟨"user", "U3", [("turn", "3")]⟩]

/-! ## Helper lemmas -/

/-- `add_message` below the bound: plain append, no truncation. -/
theorem add_message_no_trunc (ctx : ConversationContext) (r c : String)
    (m : Args) (h : ctx.messages.length + 1 ≤ ctx.max_history) :
    ctx.add_message r c m = ⟨ctx.messages ++ [⟨r, c, m⟩], ctx.max_history⟩ := by
  unfold ConversationContext.add_message
  rw [if_neg]
  simp only [List.length_append, List.length_cons, List.length_nil]
  omega

/-- Closed form of appending a message sequence to a fresh context with a
positive bound: the retained messages are exactly the last `max_history`
of the sequence. -/
theorem addAll_eq_drop (N : Nat) (hN : 1 ≤ N) (items : List Message) :
    ConversationContext.addAll ⟨[], N⟩ items =
      ⟨items.drop (items.length - N), N⟩ := by
  induction items using List.reverseRecOn with
  | nil => simp [ConversationContext.addAll]
  | append_singleton s m ih =>
    obtain ⟨mr, mc, mm⟩ := m
    have hstep : ConversationContext.addAll ⟨[], N⟩ (s ++ [⟨mr, mc, mm⟩]) =
        (ConversationContext.addAll ⟨[], N⟩ s).add_message mr mc mm := by
      simp [ConversationContext.addAll, List.foldl_append]
    rw [hstep, ih]
    rcases Nat.lt_or_ge s.length N with h | h
    · have h0 : s.length - N = 0 := by omega
      have h1 : (s ++ [(⟨mr, mc, mm⟩ : Message)]).length - N = 0 := by
        simp only [List.length_append, List.length_cons, List.length_nil]
        omega
      rw [h0, h1]
      simp only [List.drop_zero]
      rw [add_message_no_trunc _ _ _ _ (by simp only []; omega)]
    · have hd : (s.drop (s.length - N)).length = N := by
        rw [List.length_drop]; omega
      have hcond : (s.drop (s.length - N) ++ [(⟨mr, mc, mm⟩ : Message)]).length > N := by
        simp only [List.length_append, hd, List.length_cons, List.length_nil]
        omega
      simp only [ConversationContext.add_message]
      rw [if_pos hcond]
      simp only [pySliceLast]
      rw [if_neg (show ¬ N = 0 by omega)]
      simp only [List.length_append, hd, List.length_cons, List.length_nil]
      have e1 : N + (0 + 1) - N = 1 := by omega
      rw [e1, List.drop_append_of_le_length (by rw [hd]; omega),
        List.drop_drop, List.drop_append_of_le_length (by omega)]
      have e2 : s.length - N + 1 = s.length + (0 + 1) - N := by omega
      rw [e2]

/-! ## C4 — history bound -/

/-- C4 (counterexample): the claim quantifies over *every* `max_history N`,
but for `N = 0` the Python slice `messages[-0:]` keeps the whole list, so
after one appended message (`M = 1 > 0 = N`) `get_messages()` returns that
message instead of the last `0` messages. -/
theorem c4_counterexample :
    (ConversationContext.add_message ⟨[], 0⟩ "user" "U1" []).get_messages =
        [("user", "U1")] ∧
      (ConversationContext.add_message ⟨[], 0⟩ "user" "U1" []).get_messages ≠
        [] := by
  constructor
  · rfl
  · decide

/-- C4 (amended: restricted to `max_history ≥ 1`): for every `N ≥ 1` and
every sequence of `M > N` messages appended via `add_message` to a fresh
context, `get_messages()` returns exactly the last `N` of them, in original
relative order, as role/content pairs with metadata stripped. -/
theorem c4_history_bound (N : Nat) (hN : 1 ≤ N) (items : List Message)
    (hM : N < items.length) :
    (ConversationContext.addAll ⟨[], N⟩ items).get_messages =
        (items.drop (items.length - N)).map (fun m => (m.role, m.content)) ∧
      (items.drop (items.length - N)).length = N := by
  constructor
  · rw [addAll_eq_drop N hN items]
    rfl
  · rw [List.length_drop]; omega

/-- C4 witness: `max_history = 3`, appends U1,A1,U2,A2,U3 → exactly
[U2,A2,U3]. -/
theorem c4_history_bound_witness :
    1 ≤ 3 ∧ 3 < scenario2Items.length ∧
      (ConversationContext.addAll ⟨[], 3⟩ scenario2Items).get_messages =
        [("user", "U2"), ("assistant", "A2"), ("user", "U3")] := by
  refine ⟨by decide, by decide, ?_⟩
  have h := (c4_history_bound 3 (by decide) scenario2Items (by decide)).1
  rw [h]
  rfl

/-- With no confirmation callback installed, `processToolCall` always takes
the dispatch branch (the `if self.confirmation_callback:` guard in
`agent.py` skips the whole confirmation block). -/
theorem processToolCall_no_callback (cfg : AgentConfig) (tc : ToolCall)
    (st : TurnState) (hcb : cfg.confirmation_callback = none) :
    processToolCall cfg tc st = executeToolCall cfg tc st := by
  simp [processToolCall, hcb]

/-! ## C1 — behaviour of dangerous calls without a confirmation handler -/

/-- C1 (counterexample): with no confirmation callback installed, a tool
call classified dangerous is *not* denied automatically: the run records
the step as `completed` (not `cancelled`) and the handler's marker result
proves the skill handler was invoked. -/
theorem c1_counterexample :
    (chat_with_tools noCallbackCfg emptyCtx "删除这个文件").progress_info.execution_steps =
        [⟨"execute_powershell", [("command", "Remove-Item \x27C:\\data\x27")],
          marker, "completed"⟩] ∧
      (is_dangerous_operation "execute_powershell"
        [("command", "Remove-Item \x27C:\\data\x27")]).1 = true := by
  decide

/-- C1 (amended): for a tool call classified dangerous, when no
confirmation handler is installed the call is **not** denied: the engine
falls through to normal dispatch, the skill handler result is recorded,
and the step's status is `completed`/`failed` from that result (never an
automatic `cancelled`).  Denial happens only through an installed handler
that refuses. -/
theorem c1_no_handler_executes (cfg : AgentConfig) (tc : ToolCall)
    (st : TurnState)
    (hd : (is_dangerous_operation tc.name tc.input).1 = true)
    (hcb : cfg.confirmation_callback = none) :
    processToolCall cfg tc st = executeToolCall cfg tc st ∧
      (processToolCall cfg tc st).progress_info.execution_steps =
        st.progress_info.execution_steps ++
          [⟨tc.name, tc.input, cfg.skills.execute_skill cfg.env tc.name tc.input,
            if (cfg.skills.execute_skill cfg.env tc.name tc.input).get_success
            then "completed" else "failed"⟩] := by
  have h := processToolCall_no_callback cfg tc st hcb
  refine ⟨h, ?_⟩
  rw [h]
  rfl

/-- C1 witness: the amended statement at the concrete dangerous
PowerShell call and the callback-free agent. -/
theorem c1_no_handler_executes_witness :
    (is_dangerous_operation dangerCall.name dangerCall.input).1 = true ∧
      noCallbackCfg.confirmation_callback = none ∧
      processToolCall noCallbackCfg dangerCall turnState0 =
        executeToolCall noCallbackCfg dangerCall turnState0 :=
  ⟨by decide, rfl,
    (c1_no_handler_executes noCallbackCfg dangerCall turnState0 (by decide) rfl).1⟩

/-! ## C2 — what the classifier actually flags -/

/-- C2 (counterexample): a skill named `delete_file` invoked with
`path="C:\data"` is *not* classified dangerous (`is_dangerous_operation`
inspects only `execute_powershell`), so even with an always-denying
confirmation consumer the recorded step is `completed` and the handler's
marker result proves the file-deletion handler ran. -/
theorem c2_counterexample :
    (chat_with_tools denyAllCfg emptyCtx "delete C:\\data").progress_info.execution_steps =
        [⟨"delete_file", [("path", "C:\\data")], marker, "completed"⟩] ∧
      is_dangerous_operation "delete_file" [("path", "C:\\data")] = (false, "") := by
  decide

/-- C2 (amended): the classifier flags only `execute_powershell` commands
matching a deletion pattern — a `delete_file` call is never classified
dangerous (for any arguments) and is dispatched normally; for a call that
*is* classified dangerous, an always-denying confirmation consumer yields a
`cancelled` step with the synthesized cancellation result, and the handler
is never invoked (the cancel branch never consults the registry or the
module environment). -/
theorem c2_classifier_scope (args : Args) (cfg : AgentConfig) (tc : ToolCall)
    (st : TurnState)
    (hd : (is_dangerous_operation tc.name tc.input).1 = true)
    (hcb : cfg.confirmation_callback = some (fun _ _ => false)) :
    (is_dangerous_operation "delete_file" args).1 = false ∧
      processToolCall cfg tc st = cancelToolCall tc st ∧
      (cancelToolCall tc st).progress_info.execution_steps =
        st.progress_info.execution_steps ++
          [⟨tc.name, tc.input, cancelResult tc, "cancelled"⟩] := by
  refine ⟨?_, ?_, rfl⟩
  · unfold is_dangerous_operation
    rw [if_neg (by decide)]
  · simp [processToolCall, hd, hcb]

/-- C2 witness: the amended statement at the dangerous PowerShell call and
the always-denying agent. -/
theorem c2_classifier_scope_witness :
    (is_dangerous_operation dangerCall.name dangerCall.input).1 = true ∧
      denyPsCfg.confirmation_callback = some (fun _ _ => false) ∧
      processToolCall denyPsCfg dangerCall turnState0 =
        cancelToolCall dangerCall turnState0 :=
  ⟨by decide, rfl,
    (c2_classifier_scope [("path", "C:\\data")] denyPsCfg dangerCall turnState0
      (by decide) rfl).2.1⟩

/-- A call not classified dangerous always takes the dispatch branch. -/
theorem processToolCall_safe (cfg : AgentConfig) (tc : ToolCall)
    (st : TurnState)
    (hsafe : (is_dangerous_operation tc.name tc.input).1 = false) :
    processToolCall cfg tc st = executeToolCall cfg tc st := by
  simp [processToolCall, hsafe]

/-! ## C5 — exception containment -/

/-- C5: a skill handler that raises is caught at the registry boundary and
converted into `{success: false, error: "Failed to execute skill …"}`; the
engine records the step as `failed`, and processing the remaining tool
calls of the round continues from that state with the same (unchanged)
configuration and registry. -/
theorem c5_exception_containment (cfg : AgentConfig) (tc : ToolCall)
    (st : TurnState) (sk : SkillDefinition) (mp e : String)
    (hsafe : (is_dangerous_operation tc.name tc.input).1 = false)
    (hsk : cfg.skills.get_skill tc.name = some sk)
    (hen : sk.enabled = true)
    (hmp : sk.module_path = some mp)
    (hmp2 : ¬ mp = "")
    (hraise : cfg.env mp tc.input = .raises e) :
    cfg.skills.execute_skill cfg.env tc.name tc.input =
        mkErrResult ("Failed to execute skill " ++ tc.name ++ ": " ++ e) ∧
      (processToolCall cfg tc st).progress_info.execution_steps =
        st.progress_info.execution_steps ++
          [⟨tc.name, tc.input,
            mkErrResult ("Failed to execute skill " ++ tc.name ++ ": " ++ e),
            "failed"⟩] ∧
      ∀ rest : List ToolCall, runToolCalls cfg (tc :: rest) st =
        runToolCalls cfg rest (processToolCall cfg tc st) := by
  have hex : cfg.skills.execute_skill cfg.env tc.name tc.input =
      mkErrResult ("Failed to execute skill " ++ tc.name ++ ": " ++ e) := by
    unfold SkillManager.execute_skill
    rw [hsk]
    simp [hen, hmp, hmp2, hraise]
  refine ⟨hex, ?_, fun rest => rfl⟩
  rw [processToolCall_safe cfg tc st hsafe]
  simp [executeToolCall, hex, SkillResult.get_success, mkErrResult]

/-- C5 witness: a raising `write_file` handler in a one-skill registry. -/
theorem c5_exception_containment_witness :
    (is_dangerous_operation wfCall.name wfCall.input).1 = false ∧
      raisingCfg.skills.execute_skill raisingCfg.env wfCall.name wfCall.input =
        mkErrResult "Failed to execute skill write_file: boom" :=
  ⟨by decide,
    (c5_exception_containment raisingCfg wfCall turnState0 writeSkill
      "skills.file_operations.write_file" "boom" (by decide) rfl rfl rfl
      (by decide) rfl).1⟩

/-! ## C6 — registry failure modes -/

/-- C6: `execute_skill` fails with `Skill not found: <name>` for an absent
name, `Skill is disabled: <name>` for a present-but-disabled skill, and
`Skill has no implementation: <name>` for a definition without a bound
module; each is a structured `success: false` result.  For a tool call to
an absent name the engine records a `failed` step and appends the tool-use
and tool-result messages (carrying the failure result) that the loop hands
to the next LLM call. -/
theorem c6_registry_failures (m : SkillManager) (env : HandlerEnv)
    (n1 n2 n3 : String) (args : Args) (sk2 sk3 : SkillDefinition)
    (cfg : AgentConfig) (tc : ToolCall) (st : TurnState)
    (h1 : m.get_skill n1 = none)
    (h2 : m.get_skill n2 = some sk2) (h2e : sk2.enabled = false)
    (h3 : m.get_skill n3 = some sk3) (h3e : sk3.enabled = true)
    (h3m : sk3.module_path = none)
    (hcfg : cfg.skills = m) (htc : tc.name = n1)
    (hsafe : (is_dangerous_operation tc.name tc.input).1 = false) :
    m.execute_skill env n1 args = mkErrResult ("Skill not found: " ++ n1) ∧
      m.execute_skill env n2 args = mkErrResult ("Skill is disabled: " ++ n2) ∧
      m.execute_skill env n3 args =
        mkErrResult ("Skill has no implementation: " ++ n3) ∧
      (processToolCall cfg tc st).progress_info.execution_steps =
        st.progress_info.execution_steps ++
          [⟨tc.name, tc.input, mkErrResult ("Skill not found: " ++ n1),
            "failed"⟩] ∧
      (processToolCall cfg tc st).messages =
        st.messages ++ [toolUseMsg tc,
          toolResultMsg tc (mkErrResult ("Skill not found: " ++ n1))] := by
  have hx1 : ∀ (e : HandlerEnv) (a : Args),
      m.execute_skill e n1 a = mkErrResult ("Skill not found: " ++ n1) := by
    intro e a
    unfold SkillManager.execute_skill
    rw [h1]
  have hx2 : m.execute_skill env n2 args =
      mkErrResult ("Skill is disabled: " ++ n2) := by
    unfold SkillManager.execute_skill
    rw [h2]
    simp [h2e]
  have hx3 : m.execute_skill env n3 args =
      mkErrResult ("Skill has no implementation: " ++ n3) := by
    unfold SkillManager.execute_skill
    rw [h3]
    simp [h3e, h3m]
  have hexec : cfg.skills.execute_skill cfg.env tc.name tc.input =
      mkErrResult ("Skill not found: " ++ n1) := by
    rw [hcfg, htc]
    exact hx1 cfg.env tc.input
  refine ⟨hx1 env args, hx2, hx3, ?_, ?_⟩
  · rw [processToolCall_safe cfg tc st hsafe]
    simp [executeToolCall, hexec, SkillResult.get_success, mkErrResult]
  · rw [processToolCall_safe cfg tc st hsafe]
    simp [executeToolCall, hexec]

/-- C6 witness: registry without `"foo"`, with a disabled skill and an
unimplemented skill; the engine step for `"foo"` records the
`Skill not found: foo` result. -/
theorem c6_registry_failures_witness :
    failRegistry.get_skill "foo" = none ∧
      failRegistry.execute_skill okEnv "foo" [] =
        mkErrResult "Skill not found: foo" ∧
      failRegistry.execute_skill okEnv "skB" [] =
        mkErrResult "Skill is disabled: skB" ∧
      failRegistry.execute_skill okEnv "skC" [] =
        mkErrResult "Skill has no implementation: skC" :=
  have h := c6_registry_failures failRegistry okEnv "foo" "skB" "skC" []
    disabledSkill noImplSkill fooCfg fooCall turnState0 rfl rfl rfl rfl rfl
    rfl rfl rfl (by decide)
  ⟨rfl, h.1, h.2.1, h.2.2.1⟩

/-! ## C10 — default status for results without a `success` key -/

/-- C10: the recorded step's status is computed from
`result.get("success", True)`: a handler result lacking the `success` key
is recorded `completed`, and a step is `failed` exactly when the result
carries `success: false`. -/
theorem c10_missing_success_completed (cfg : AgentConfig) (tc : ToolCall)
    (st : TurnState) (r : SkillResult)
    (hsafe : (is_dangerous_operation tc.name tc.input).1 = false)
    (hr : cfg.skills.execute_skill cfg.env tc.name tc.input = r) :
    (processToolCall cfg tc st).progress_info.execution_steps =
        st.progress_info.execution_steps ++
          [⟨tc.name, tc.input, r,
            if r.get_success then "completed" else "failed"⟩] ∧
      (r.success = none →
        (if r.get_success then "completed" else "failed") = "completed") ∧
      ((if r.get_success then "completed" else "failed") = "failed" ↔
        r.success = some false) := by
  refine ⟨?_, ?_, ?_⟩
  · rw [processToolCall_safe cfg tc st hsafe]
    simp [executeToolCall, hr]
  · intro hnone
    simp [SkillResult.get_success, hnone]
  · rcases hs : r.success with _ | b
    · simp [SkillResult.get_success, hs]
    · cases b <;> simp [SkillResult.get_success, hs]

/-- C10 witness: a handler returning a result with no `success` key yields
a `completed` step. -/
theorem c10_missing_success_completed_witness :
    noSuccessResult.success = none ∧
      (processToolCall noSuccessCfg wfCall turnState0).progress_info.execution_steps =
        [⟨"write_file", [("path", "a.txt")], noSuccessResult, "completed"⟩] :=
  have h := c10_missing_success_completed noSuccessCfg wfCall turnState0
    noSuccessResult (by decide) rfl
  ⟨rfl, by rw [h.1]; rfl⟩

/-! ## C9 — one tool-use and one tool-result message per ToolCall -/

/-- `recordPlan` never touches the message list. -/
theorem recordPlan_messages (calls : List ToolCall) (st : TurnState) :
    (recordPlan calls st).messages = st.messages := by
  unfold recordPlan
  split <;> rfl

/-- Each processed tool call appends exactly its tool-use/tool-result
message pair, whatever the branch taken. -/
theorem processToolCall_messages (cfg : AgentConfig) (tc : ToolCall)
    (st : TurnState) :
    (processToolCall cfg tc st).messages = st.messages ++ toolMsgPair cfg tc := by
  cases hd2 : (is_dangerous_operation tc.name tc.input).1 with
  | false =>
    simp [processToolCall, toolMsgPair, recordedResult, hd2, executeToolCall]
  | true =>
    cases hcb : cfg.confirmation_callback with
    | none =>
      simp [processToolCall, toolMsgPair, recordedResult, hd2, hcb,
        executeToolCall]
    | some cb =>
      cases hc : cb tc.name (is_dangerous_operation tc.name tc.input).2 with
      | false =>
        simp [processToolCall, toolMsgPair, recordedResult, hd2, hcb, hc,
          cancelToolCall]
      | true =>
        simp [processToolCall, toolMsgPair, recordedResult, hd2, hcb, hc,
          executeToolCall]

/-- C9: for every ToolCall of a round — cancelled ones included — exactly
one assistant tool-use message and one tool-result message carrying that
call's recorded result (for a cancelled call, the synthesized cancellation
result) are appended, per call, in tool-call order; `loopBody` produces
exactly this message list, which is what the loop passes to the next LLM
call before returning to analysis. -/
theorem c9_message_pairs (cfg : AgentConfig) (calls : List ToolCall)
    (st : TurnState) :
    (runToolCalls cfg calls st).messages =
        st.messages ++ (calls.map (toolMsgPair cfg)).flatten ∧
      (loopBody cfg calls st).messages =
        st.messages ++ (calls.map (toolMsgPair cfg)).flatten := by
  have key : ∀ (cs : List ToolCall) (s : TurnState),
      (runToolCalls cfg cs s).messages =
        s.messages ++ (cs.map (toolMsgPair cfg)).flatten := by
    intro cs
    induction cs with
    | nil => intro s; simp [runToolCalls]
    | cons tc rest ih =>
      intro s
      have hstep : runToolCalls cfg (tc :: rest) s =
          runToolCalls cfg rest (processToolCall cfg tc s) := rfl
      rw [hstep, ih, processToolCall_messages]
      simp [List.append_assoc]
  refine ⟨key calls st, ?_⟩
  show (runToolCalls cfg calls (recordPlan calls st)).messages = _
  rw [key calls (recordPlan calls st), recordPlan_messages]

/-! ## Loop lemmas -/

/-- `bump` adds one executed round. -/
theorem LoopOut.rounds_bump (o : LoopOut) : o.bump.rounds = o.rounds + 1 := by
  cases o <;> rfl

/-- The while loop never executes more rounds than its fuel. -/
theorem runLoop_rounds_le (cfg : AgentConfig) (tools : List ToolSchema) :
    ∀ (fuel : Nat) (r : LLMResponse) (st : TurnState),
      (runLoop cfg tools fuel r st).rounds ≤ fuel := by
  intro fuel
  induction fuel with
  | zero => intro r st; simp [runLoop, LoopOut.rounds]
  | succ n ih =>
    intro r st
    cases r with
    | text s => simp [runLoop, LoopOut.rounds]
    | llmRaise e => simp [runLoop, LoopOut.rounds]
    | toolUse calls =>
      simp only [runLoop]
      cases hllm : cfg.llm (loopBody cfg calls st).messages tools with
      | llmRaise e => simp [LoopOut.rounds]
      | text s => simp [LoopOut.rounds]
      | toolUse cs =>
        simp only [LoopOut.rounds_bump]
        have := ih (.toolUse cs) (loopBody cfg calls st)
        omega

/-- Against a provider that always answers with tool-use requests, the
while loop consumes all its fuel and ends still holding a tool-use
response. -/
theorem runLoop_always_toolUse (cfg : AgentConfig) (tools : List ToolSchema)
    (H : ∀ m t, ∃ cs, cfg.llm m t = .toolUse cs) :
    ∀ (fuel : Nat) (calls : List ToolCall) (st : TurnState),
      ∃ cs st2, runLoop cfg tools fuel (.toolUse calls) st =
        .finished (.toolUse cs) st2 fuel := by
  intro fuel
  induction fuel with
  | zero => intro calls st; exact ⟨calls, st, rfl⟩
  | succ n ih =>
    intro calls st
    obtain ⟨cs1, h1⟩ := H (loopBody cfg calls st).messages tools
    obtain ⟨cs2, st2, h2⟩ := ih cs1 (loopBody cfg calls st)
    refine ⟨cs2, st2, ?_⟩
    simp only [runLoop, h1, h2, LoopOut.bump]

/-- Whatever the provider does, a turn executes at most `max_iterations`
tool rounds. -/
theorem chat_rounds_le (cfg : AgentConfig) (ctx : ConversationContext)
    (um : String) : (chat_with_tools cfg ctx um).rounds ≤ max_iterations := by
  simp only [chat_with_tools]
  split
  · simp
  · split
    all_goals
      rename_i heq
      have hk := runLoop_rounds_le cfg cfg.skills.get_skills_for_llm
        max_iterations
        (cfg.llm (firstMessages cfg (ctx.add_message "user" um []))
          cfg.skills.get_skills_for_llm)
        (startState (firstMessages cfg (ctx.add_message "user" um []))
          (cfg.llm (firstMessages cfg (ctx.add_message "user" um []))
            cfg.skills.get_skills_for_llm))
      rw [heq] at hk
      simpa [LoopOut.rounds] using hk

/-! ## C3 — termination under a provider that always requests tools -/

/-- C3: against any provider that always returns tool-use responses,
`chat_with_tools` terminates after exactly `max_iterations` (= 10) tool
rounds, returns the iteration-limit terminal error string, and has made
exactly `max_iterations + 1` provider calls (one initial call plus one per
round — none after the cap is detected); and no run of the engine, against
any provider whatsoever, ever exceeds `max_iterations` rounds. -/
theorem c3_termination (cfg : AgentConfig) (ctx : ConversationContext)
    (user_message : String)
    (H : ∀ m t, ∃ cs, cfg.llm m t = .toolUse cs) :
    (chat_with_tools cfg ctx user_message).result =
        "错误：工具调用超过最大迭代次数" ∧
      (chat_with_tools cfg ctx user_message).rounds = max_iterations ∧
      (chat_with_tools cfg ctx user_message).llm_calls = max_iterations + 1 ∧
      ∀ (cfg2 : AgentConfig) (ctx2 : ConversationContext) (um2 : String),
        (chat_with_tools cfg2 ctx2 um2).rounds ≤ max_iterations := by
  obtain ⟨cs0, h0⟩ := H
    (firstMessages cfg (ctx.add_message "user" user_message []))
    cfg.skills.get_skills_for_llm
  obtain ⟨cs, st2, h2⟩ := runLoop_always_toolUse cfg
    cfg.skills.get_skills_for_llm H max_iterations cs0
    (startState (firstMessages cfg (ctx.add_message "user" user_message []))
      (.toolUse cs0))
  refine ⟨?_, ?_, ?_, fun cfg2 ctx2 um2 => chat_rounds_le cfg2 ctx2 um2⟩ <;>
    simp [chat_with_tools, h0, h2, Nat.add_comm]

/-- C3 witness: a provider that always answers with an (empty) tool-use
request drives the engine to the iteration-limit error. -/
theorem c3_termination_witness :
    (chat_with_tools loopForeverCfg emptyCtx "清理磁盘").result =
        "错误：工具调用超过最大迭代次数" ∧
      (chat_with_tools loopForeverCfg emptyCtx "清理磁盘").rounds =
        max_iterations :=
  have h := c3_termination loopForeverCfg emptyCtx "清理磁盘"
    (fun _ _ => ⟨[], rfl⟩)
  ⟨h.1, h.2.1⟩

/-! ## C8 — how the iteration-cap failure is reported -/

/-- C8 (counterexample): when the iteration cap is reached, the terminal
error string is only *returned*; the conversation transcript
(`self.context`) receives no assistant message at all — it holds just the
turn's user message, so the transcript does not contain a textual
explanation of the failure. -/
theorem c8_counterexample :
    (chat_with_tools loopForeverCfg emptyCtx "你好").context.messages =
        [⟨"user", "你好", []⟩] ∧
      (chat_with_tools loopForeverCfg emptyCtx "你好").result =
        "错误：工具调用超过最大迭代次数" := by
  decide

/-- C8 (amended): when the iteration cap is reached, the turn ends with the
explicit terminal error string as the returned result, records it in
`progress_info["final_result"]`, and emits a final `error` progress event
carrying it — but the error text is *not* appended to the
ConversationContext, which retains only the turn's user message (the
claim's "transcript contains the textual explanation" holds for the
returned string and the progress events, not for the context). -/
theorem c8_cap_error_reporting (cfg : AgentConfig) (ctx : ConversationContext)
    (um : String) (H : ∀ m t, ∃ cs, cfg.llm m t = .toolUse cs) :
    (chat_with_tools cfg ctx um).result = "错误：工具调用超过最大迭代次数" ∧
      (chat_with_tools cfg ctx um).progress_info.final_result =
        "错误：工具调用超过最大迭代次数" ∧
      (chat_with_tools cfg ctx um).events.getLast? =
        some (.error "错误：工具调用超过最大迭代次数"
          (chat_with_tools cfg ctx um).progress_info) ∧
      (chat_with_tools cfg ctx um).context = ctx.add_message "user" um [] := by
  obtain ⟨cs0, h0⟩ := H (firstMessages cfg (ctx.add_message "user" um []))
    cfg.skills.get_skills_for_llm
  obtain ⟨cs, st2, h2⟩ := runLoop_always_toolUse cfg
    cfg.skills.get_skills_for_llm H max_iterations cs0
    (startState (firstMessages cfg (ctx.add_message "user" um []))
      (.toolUse cs0))
  refine ⟨?_, ?_, ?_, ?_⟩ <;>
    simp [chat_with_tools, h0, h2, List.getLast?_concat]

/-- C8 witness: the amended statement at the always-tool-use provider. -/
theorem c8_cap_error_reporting_witness :
    (chat_with_tools loopForeverCfg emptyCtx "hi").result =
        "错误：工具调用超过最大迭代次数" ∧
      (chat_with_tools loopForeverCfg emptyCtx "hi").context =
        emptyCtx.add_message "user" "hi" [] :=
  have h := c8_cap_error_reporting loopForeverCfg emptyCtx "hi"
    (fun _ _ => ⟨[], rfl⟩)
  ⟨h.1, h.2.2.2⟩

/-! ## C7 — provider exception on the first call of a turn -/

/-- C7: if the provider raises on the first call of a turn, the turn ends
in the error terminal state: the returned string is the assistant error
message, the context gains exactly the user message plus that one assistant
error message, no ExecutionSteps are recorded, and only one provider call
was made (the next user message would start a fresh turn on the returned
context). -/
theorem c7_provider_error_first_call (cfg : AgentConfig)
    (ctx : ConversationContext) (um e : String)
    (hroom : ctx.messages.length + 2 ≤ ctx.max_history)
    (hraise : cfg.llm (firstMessages cfg (ctx.add_message "user" um []))
      cfg.skills.get_skills_for_llm = .llmRaise e) :
    (chat_with_tools cfg ctx um).result = "发生错误: " ++ e ∧
      (chat_with_tools cfg ctx um).context.messages =
        ctx.messages ++
          [⟨"user", um, []⟩, ⟨"assistant", "发生错误: " ++ e, []⟩] ∧
      (chat_with_tools cfg ctx um).progress_info.execution_steps = [] ∧
      (chat_with_tools cfg ctx um).llm_calls = 1 := by
  have hctx2 : (ctx.add_message "user" um []).add_message "assistant"
      ("发生错误: " ++ e) [] =
      ⟨ctx.messages ++ [⟨"user", um, []⟩, ⟨"assistant", "发生错误: " ++ e, []⟩],
        ctx.max_history⟩ := by
    rw [add_message_no_trunc ctx "user" um [] (by omega),
      add_message_no_trunc _ _ _ _ (by simp; omega)]
    simp
  refine ⟨?_, ?_, ?_, ?_⟩ <;> simp [chat_with_tools, hraise, hctx2]

/-- C7 witness: a connection-refused provider over an empty context. -/
theorem c7_provider_error_first_call_witness :
    (chat_with_tools raiseCfg emptyCtx "hello").result =
        "发生错误: Connection refused" ∧
      (chat_with_tools raiseCfg emptyCtx "hello").context.messages =
        [⟨"user", "hello", []⟩,
          ⟨"assistant", "发生错误: Connection refused", []⟩] ∧
      (chat_with_tools raiseCfg emptyCtx "hello").progress_info.execution_steps =
        [] :=
  have h := c7_provider_error_first_call raiseCfg emptyCtx "hello"
    "Connection refused" (by decide) rfl
  ⟨h.1, by rw [h.2.1]; rfl, h.2.2.1⟩

end Jessit
